import Mathlib

/-!
Verification of the request-mapping layer of a Go client library for a
multi-model HTTP database service (key/value, graph relations, events).

The Go source is shallowly embedded: each operation is split into the pure
request-construction part (what URI, method and headers it builds) and the
pure response-handling part (a function of an abstract `Response` value).
Go runtime panics (out-of-range string indexing or slicing) are modelled
with `Option`, `none` standing for the panic.  JSON decoding of payload
bodies is abstracted into explicit decoder arguments or pre-decoded
`Option` fields, since the claims under study never depend on the JSON
grammar itself, only on whether a decode succeeds or fails.
-/

namespace Gorc

/-- An entity address: collection, key and optional version ref
(the Go struct `Path`; an empty `Ref` means "latest"). -/
structure Path where
  Collection : String
  Key : String
  Ref : String
deriving DecidableEq

/-- Go `Path.trailingGetURI`: the trailing URI for a GET request,
`collection/key/refs/ref` when a ref is present, else `collection/key`. -/
def Path.trailingGetURI (path : Path) : String :=
  if path.Ref ≠ "" then
    path.Collection ++ "/" ++ path.Key ++ "/refs/" ++ path.Ref
  else
    path.Collection ++ "/" ++ path.Key

/-- Go `Path.trailingPutURI`: the trailing URI for a PUT request,
always `collection/key`. -/
def Path.trailingPutURI (path : Path) : String :=
  path.Collection ++ "/" ++ path.Key

/-- The pure request data an operation hands to `doRequest`:
HTTP method, trailing URI (appended to the fixed root URI) and the
explicit header map supplied by the operation (Go passes `nil` for none,
modelled as `[]`).  The transport-level additions made inside `doRequest`
(basic auth, `Content-Type` on PUT) are outside this map, exactly as in
the source where they are added to the `http.Request` afterwards. -/
structure Request where
  method : String
  trailingUri : String
  headers : List (String × String)
deriving DecidableEq

/-- Go `Client.Get`: builds a GET request for the latest value at
collection/key (via `GetPath` on a ref-less `Path`). -/
def GetRequest (collection key : String) : Request :=
  { method := "GET"
    trailingUri := Path.trailingGetURI ⟨collection, key, ""⟩
    headers := [] }

/-- Go `Client.GetPath`: builds a GET request for the value at a path. -/
def GetPathRequest (path : Path) : Request :=
  { method := "GET", trailingUri := path.trailingGetURI, headers := [] }

/-- Go `Client.doPut`: builds a PUT request against the write URI with the
headers supplied by the calling operation. -/
def doPutRequest (path : Path) (headers : List (String × String)) : Request :=
  { method := "PUT", trailingUri := path.trailingPutURI, headers := headers }

/-- Go `Client.PutRaw` (and `Put`): unconditional write, no headers. -/
def PutRawRequest (collection key : String) : Request :=
  doPutRequest ⟨collection, key, ""⟩ []

/-- Go `Client.PutIfUnmodifiedRaw` (and `PutIfUnmodified`): conditional
write carrying `If-Match` with the path's ref wrapped in double quotes. -/
def PutIfUnmodifiedRawRequest (path : Path) : Request :=
  doPutRequest path [("If-Match", "\"" ++ path.Ref ++ "\"")]

/-- Go `Client.PutIfAbsentRaw` (and `PutIfAbsent`): create-only write
carrying `If-None-Match` with the literal quoted asterisk. -/
def PutIfAbsentRawRequest (collection key : String) : Request :=
  doPutRequest ⟨collection, key, ""⟩ [("If-None-Match", "\"*\"")]

/-- Go `Client.DeleteIfUnmodified`: conditional delete carrying `If-Match`
with the path's ref wrapped in double quotes, against the write URI. -/
def DeleteIfUnmodifiedRequest (path : Path) : Request :=
  { method := "DELETE"
    trailingUri := path.trailingPutURI
    headers := [("If-Match", "\"" ++ path.Ref ++ "\"")] }

/-- Go `strings.SplitAfter(s, "/")` restricted to the single-character
separator the source uses: splits a character list after each `'/'`,
keeping the separator at the end of each piece; always returns one more
piece than there are separators (so `[]` maps to `[[]]`). -/
def splitAfterCharList (sep : Char) : List Char → List (List Char)
  | [] => [[]]
  | c :: rest =>
    if c = sep then
      [c] :: splitAfterCharList sep rest
    else
      match splitAfterCharList sep rest with
      | [] => [[c]]
      | p :: ps => (c :: p) :: ps

/-- Go `strings.SplitAfter(s, "/")` on strings. -/
def stringsSplitAfterSlash (s : String) : List String :=
  (splitAfterCharList '/' s.data).map String.mk

/-- The ref extraction the source performs on `Location` and
`Content-Location` headers: `strings.SplitAfter(header, "/")[5]`.
The Go indexing panics when the split has at most five pieces; the panic
is modelled as `none`. -/
def extractRefAtIndex5 (header : String) : Option String :=
  (stringsSplitAfterSlash header)[5]?

/-- Outcome of a header-ref extraction in the spec's vocabulary. -/
inductive RefExtractOutcome where
  | ok (ref : String)
  | headerParsingError
deriving DecidableEq

/-- Splitting a character list on `'/'`, separators dropped (the
ordinary `splitOn` semantics, re-implemented so it evaluates by kernel
reduction). -/
def splitOnSlashList : List Char → List (List Char)
  | [] => [[]]
  | c :: rest =>
    if c = '/' then
      [] :: splitOnSlashList rest
    else
      match splitOnSlashList rest with
      | [] => [[c]]
      | p :: ps => (c :: p) :: ps

/-- Modelled from the spec (for comparison with the source's
`extractRefAtIndex5`): split the header on the path separator, take the
segment immediately following the literal `refs` marker, and fail with
`HeaderParsingError` when the marker is absent or is the final segment. -/
def specRefsMarkerExtract (header : String) : RefExtractOutcome :=
  match ((splitOnSlashList header.data).map String.mk).dropWhile
      (fun seg => seg ≠ "refs") with
  | _ :: next :: _ => .ok next
  | _ => .headerParsingError

/-- The Orchestrate-specific error the client surfaces for non-success
HTTP responses (Go struct `OrchestrateError`). -/
structure OrchestrateError where
  Status : String
  Message : String
  Locator : String
deriving DecidableEq

/-- An HTTP response as the response-handling halves of the operations
see it: numeric status code, status line, headers, the decode of the body
as an error payload `{message, locator}` (`none` when the body does not
decode — Go's `decoder.Decode` error, which `newError` ignores), and the
raw body bytes. -/
structure Response where
  StatusCode : Nat
  Status : String
  Header : List (String × String)
  errorBodyDecode : Option (String × String)
  body : String

/-- Go `http.Header.Get`: first value stored for the key, or `""`. -/
def headerGet (headers : List (String × String)) (key : String) : String :=
  match headers.find? (fun p => p.1 = key) with
  | some p => p.2
  | none => ""

/-- Go `newError`: decode the response body as `{message, locator}` into a
zero-valued struct, ignoring any decode error (failed decode leaves both
fields empty), then attach the HTTP status line. -/
def newError (status : String) (decodedBody : Option (String × String)) :
    OrchestrateError :=
  match decodedBody with
  | some (message, locator) => ⟨status, message, locator⟩
  | none => ⟨status, "", ""⟩

/-- An individual key/value result (Go struct `KVResult`); `RawValue`
holds the raw payload bytes. -/
structure KVResult where
  Path : Path
  RawValue : String
deriving DecidableEq

/-- Results of a KV list query (Go struct `KVResults`); `Next` is the
continuation link, `""` when the JSON field is absent. -/
structure KVResults where
  Count : Nat
  Results : List KVResult
  Next : String
deriving DecidableEq

/-- Go `KVResults.HasNext`: whether a subsequent page exists,
`results.Next != ""`. -/
def KVResults.HasNext (results : KVResults) : Bool :=
  results.Next ≠ ""

/-- What `ListGetNext` does before any response arrives.  The source
computes `results.Next[4:]` unconditionally; Go string slicing panics
when the string is shorter than four bytes, so an absent (empty) token
panics.  `noMorePagesError` is never produced by the source — the
constructor exists so the spec's predicted outcome is expressible. -/
inductive ListNextOutcome where
  | getRequest (trailingUri : String)
  | panicSliceOutOfRange
  | noMorePagesError
deriving DecidableEq

/-- Go `Client.ListGetNext`: `doList(results.Next[4:])`.  Byte slicing is
modelled on characters (the URIs at play are ASCII). -/
def ListGetNext (results : KVResults) : ListNextOutcome :=
  if results.Next.length < 4 then
    .panicSliceOutOfRange
  else
    .getRequest (results.Next.drop 4)

/-- Go `Client.doPut`, response half: non-201 statuses become
`newError`; on 201 the new ref is ripped out of the `Location` header at
fixed index 5 (a too-short header panics, modelled as `none`) and a fresh
`Path` carrying it is returned. -/
def doPutResponse (path : Path) (resp : Response) :
    Option (Except OrchestrateError Path) :=
  if resp.StatusCode ≠ 201 then
    some (.error (newError resp.Status resp.errorBodyDecode))
  else
    match extractRefAtIndex5 (headerGet resp.Header "Location") with
    | none => none
    | some ref => some (.ok ⟨path.Collection, path.Key, ref⟩)

/-- Go `Client.GetPath`, response half.  Non-200 statuses become
`newError`.  On 200, when the caller-supplied path has an empty `Ref` the
function writes the ref extracted from `Content-Location` (fixed index 5;
a too-short header panics) into the caller's `Path` in place; the second
component of the returned pair is the caller's path after the call.  The
returned `KVResult` embeds that same path and the body bytes. -/
def GetPathResponse (path : Path) (resp : Response) :
    Option (Except OrchestrateError KVResult × Path) :=
  if resp.StatusCode ≠ 200 then
    some (.error (newError resp.Status resp.errorBodyDecode), path)
  else
    if path.Ref = "" then
      match extractRefAtIndex5 (headerGet resp.Header "Content-Location") with
      | none => none
      | some ref =>
        some (.ok ⟨⟨path.Collection, path.Key, ref⟩, resp.body⟩,
          ⟨path.Collection, path.Key, ref⟩)
    else
      some (.ok ⟨path, resp.body⟩, path)

/-- Outcome of `doList` (Go returns the partially decoded struct together
with the decode error when the body does not parse). -/
inductive ListOutcome where
  | ok (results : KVResults)
  | decodeFailure (partialResults : KVResults) (msg : String)
  | serviceError (e : OrchestrateError)
deriving DecidableEq

/-- Go `Client.doList`, response half; `dec` stands for the JSON decode
of the body into `KVResults`, returning the (possibly partially filled)
struct and an optional decode error message. -/
def doListResponse (resp : Response) (dec : String → KVResults × Option String) :
    ListOutcome :=
  if resp.StatusCode ≠ 200 then
    .serviceError (newError resp.Status resp.errorBodyDecode)
  else
    match dec resp.body with
    | (r, none) => .ok r
    | (r, some msg) => .decodeFailure r msg

/-- Go `Client.doDelete`, response half: `some` error for non-204, else
`none` (success). -/
def doDeleteResponse (resp : Response) : Option OrchestrateError :=
  if resp.StatusCode ≠ 204 then
    some (newError resp.Status resp.errorBodyDecode)
  else
    none

/-- Go `Client.doPutEvent`, response half: non-204 statuses become
`newError`, else success. -/
def doPutEventResponse (resp : Response) : Except OrchestrateError Unit :=
  if resp.StatusCode ≠ 204 then
    .error (newError resp.Status resp.errorBodyDecode)
  else
    .ok ()

/-- Go `strings.Join(elems, sep)`: empty list gives `""`, otherwise the
first element followed by `sep`-prefixed copies of the rest. -/
def stringsJoin (elems : List String) (sep : String) : String :=
  match elems with
  | [] => ""
  | first :: rest => rest.foldl (fun acc e => acc ++ sep ++ e) first

/-- Go `Client.GetRelations`: GET request at
`collection/key/relations/` followed by the hops joined with `/`. -/
def GetRelationsRequest (collection key : String) (hops : List String) :
    Request :=
  { method := "GET"
    trailingUri := collection ++ "/" ++ key ++ "/relations/" ++ stringsJoin hops "/"
    headers := [] }

/-- Go `Client.PutRelation`: PUT request at the singular-form relation
path between source and sink. -/
def PutRelationRequest (sourceCollection sourceKey kind sinkCollection sinkKey :
    String) : Request :=
  { method := "PUT"
    trailingUri := sourceCollection ++ "/" ++ sourceKey ++ "/relation/" ++
      kind ++ "/" ++ sinkCollection ++ "/" ++ sinkKey
    headers := [] }

/-- The hops "joined in order by the path separator", written out
recursively the way the spec phrases it (used to check `stringsJoin`). -/
def joinedInOrder : List String → String
  | [] => ""
  | [hop] => hop
  | hop :: rest => hop ++ "/" ++ joinedInOrder rest

/-- An individual event (Go struct `Event`). -/
structure Event where
  Ordinal : Nat
  Timestamp : Nat
  RawValue : String
deriving DecidableEq

/-- An individual graph result (Go struct `GraphResult`). -/
structure GraphResult where
  Path : Path
  RawValue : String
deriving DecidableEq

/-- Go `KVResult.Value`: unmarshal the raw payload into a caller-supplied
target.  Presented in state-passing style: the decode result for the
target shape together with the envelope as the caller sees it after the
call.  The source method only reads `result.RawValue`, so the envelope
passes through untouched. -/
def KVResult.valueStep {α : Type} (result : KVResult)
    (decode : String → Except String α) : Except String α × KVResult :=
  (decode result.RawValue, result)

/-- Go `Event.Value`, state-passing form (reads only `RawValue`). -/
def Event.valueStep {α : Type} (event : Event)
    (decode : String → Except String α) : Except String α × Event :=
  (decode event.RawValue, event)

/-- Go `GraphResult.Value`, state-passing form (reads only `RawValue`). -/
def GraphResult.valueStep {α : Type} (result : GraphResult)
    (decode : String → Except String α) : Except String α × GraphResult :=
  (decode result.RawValue, result)

/-! ## Claim theorems -/

/-- C2: for every (collection, key) pair with non-empty components, the
read path for an address with empty ref is `collection/key`, the read
path for an address with non-empty ref is `collection/key/refs/<ref>`,
and the write path is always `collection/key` regardless of the
address's ref. -/
theorem C2_resolve_paths (collection key ref : String)
    (hc : collection ≠ "") (hk : key ≠ "") :
    Path.trailingGetURI ⟨collection, key, ""⟩ = collection ++ "/" ++ key ∧
    (ref ≠ "" → Path.trailingGetURI ⟨collection, key, ref⟩ =
      collection ++ "/" ++ key ++ "/refs/" ++ ref) ∧
    Path.trailingPutURI ⟨collection, key, ref⟩ = collection ++ "/" ++ key := by
  refine ⟨by simp [Path.trailingGetURI], fun hr => ?_, rfl⟩
  simp [Path.trailingGetURI, hr]

/-- Witness for C2 at collection `users`, key `alice`, ref `r1`. -/
theorem C2_resolve_paths_witness :
    Path.trailingGetURI ⟨"users", "alice", ""⟩ = "users/alice" ∧
    Path.trailingGetURI ⟨"users", "alice", "r1"⟩ = "users/alice/refs/r1" ∧
    Path.trailingPutURI ⟨"users", "alice", "r1"⟩ = "users/alice" := by
  have h := C2_resolve_paths "users" "alice" "r1" (by decide) (by decide)
  exact ⟨h.1.trans (by decide), (h.2.1 (by decide)).trans (by decide),
    h.2.2.trans (by decide)⟩

/-- C4: a create-only write attaches exactly `If-None-Match: "*"`, an
update-only-if-current write or delete attaches exactly `If-Match` with
the address's ref enclosed verbatim in double quotes, and an
unconditional write attaches no precondition header. -/
theorem C4_precondition_headers (path : Path) (collection key : String) :
    (PutIfAbsentRawRequest collection key).headers =
      [("If-None-Match", "\"*\"")] ∧
    (PutIfUnmodifiedRawRequest path).headers =
      [("If-Match", "\"" ++ path.Ref ++ "\"")] ∧
    (DeleteIfUnmodifiedRequest path).headers =
      [("If-Match", "\"" ++ path.Ref ++ "\"")] ∧
    (PutRawRequest collection key).headers = [] :=
  ⟨rfl, rfl, rfl, rfl⟩

/-- C5 counterexample: on an address whose ref is empty, the conditional
write and the conditional delete do not fail before the request is sent —
both construct a complete request carrying `If-Match: ""` (an empty
quoted entity-tag); no `PreconditionConstructionError` exists anywhere in
the source. -/
theorem C5_counterexample :
    PutIfUnmodifiedRawRequest ⟨"users", "alice", ""⟩ =
      { method := "PUT", trailingUri := "users/alice",
        headers := [("If-Match", "\"\"")] } ∧
    DeleteIfUnmodifiedRequest ⟨"users", "alice", ""⟩ =
      { method := "DELETE", trailingUri := "users/alice",
        headers := [("If-Match", "\"\"")] } := by
  exact ⟨by decide, by decide⟩

/-- C5 amended: the source performs no empty-ref validation; for every
address with an empty ref, the update-only-if-current write and the
conditional delete construct and send a request whose `If-Match` header
value is the empty quoted string. -/
theorem C5_amended_empty_ref_sent (path : Path) (h : path.Ref = "") :
    (PutIfUnmodifiedRawRequest path).headers = [("If-Match", "\"\"")] ∧
    (DeleteIfUnmodifiedRequest path).headers = [("If-Match", "\"\"")] := by
  have e : "\"" ++ path.Ref ++ "\"" = "\"\"" := by rw [h]; decide
  exact ⟨by simp [PutIfUnmodifiedRawRequest, doPutRequest, e],
    by simp [DeleteIfUnmodifiedRequest, e]⟩

/-- Witness for the amended C5 at address users/alice with empty ref. -/
theorem C5_amended_empty_ref_sent_witness :
    (PutIfUnmodifiedRawRequest ⟨"users", "alice", ""⟩).headers =
      [("If-Match", "\"\"")] ∧
    (DeleteIfUnmodifiedRequest ⟨"users", "alice", ""⟩).headers =
      [("If-Match", "\"\"")] :=
  C5_amended_empty_ref_sent ⟨"users", "alice", ""⟩ rfl

/-- C7 counterexample: an address with an empty collection does not make
path building fail with `InvalidAddressError` — the source has no
validation at all, and `Get` happily produces the degenerate path
`/alice` and issues the request. -/
theorem C7_counterexample :
    Path.trailingGetURI ⟨"", "alice", ""⟩ = "/alice" ∧
    GetRequest "" "alice" =
      { method := "GET", trailingUri := "/alice", headers := [] } := by
  exact ⟨by decide, by decide⟩

/-- C7 amended: the source never validates addresses; for every address
with an empty collection or key, the read path is still the plain
concatenation `collection/key` and the GET request is issued against
it. -/
theorem C7_amended_no_validation (collection key : String)
    (h : collection = "" ∨ key = "") :
    Path.trailingGetURI ⟨collection, key, ""⟩ = collection ++ "/" ++ key ∧
    GetRequest collection key =
      { method := "GET", trailingUri := collection ++ "/" ++ key,
        headers := [] } := by
  refine ⟨by simp [Path.trailingGetURI], ?_⟩
  simp [GetRequest, Path.trailingGetURI]

/-- Witness for the amended C7 at an empty collection. -/
theorem C7_amended_no_validation_witness :
    Path.trailingGetURI ⟨"", "alice", ""⟩ = "/alice" ∧
    GetRequest "" "alice" =
      { method := "GET", trailingUri := "/alice", headers := [] } := by
  have h := C7_amended_no_validation "" "alice" (Or.inl rfl)
  exact ⟨h.1.trans (by decide), h.2.trans (by decide)⟩

/-- C3 counterexample: on a page with no continuation token, requesting
the next page does not fail with `NoMorePagesError` — the source slices
`results.Next[4:]` unconditionally, which on the empty token is a string
slice out of range, a runtime panic. -/
theorem C3_counterexample :
    KVResults.HasNext ⟨0, [], ""⟩ = false ∧
    ListGetNext ⟨0, [], ""⟩ = ListNextOutcome.panicSliceOutOfRange ∧
    ListNextOutcome.panicSliceOutOfRange ≠ ListNextOutcome.noMorePagesError := by
  exact ⟨rfl, rfl, by decide⟩

/-- C3 amended: when the page carries a continuation token at least as
long as the fixed 4-byte link prefix, the next page is requested with a
GET targeting the token minus exactly those first 4 bytes; when the page
carries no continuation token, the operation panics with a string-slice
out of range (it neither fails with `NoMorePagesError` nor issues a
network call); `HasNext` is the caller-side guard for that case. -/
theorem C3_amended_next_page (results : KVResults) :
    (results.HasNext = false →
      ListGetNext results = ListNextOutcome.panicSliceOutOfRange) ∧
    (4 ≤ results.Next.length →
      ListGetNext results = ListNextOutcome.getRequest (results.Next.drop 4)) := by
  constructor
  · intro h
    have he : results.Next = "" := by
      by_contra hne
      simp [KVResults.HasNext, hne] at h
    simp [ListGetNext, he]
  · intro h
    simp [ListGetNext, Nat.not_lt.mpr h]

/-- Witness for the amended C3: the empty-token page panics, a page with
token `/v0/c?limit=1` issues a GET at `c?limit=1`. -/
theorem C3_amended_next_page_witness :
    ListGetNext ⟨0, [], ""⟩ = ListNextOutcome.panicSliceOutOfRange ∧
    ListGetNext ⟨0, [], "/v0/c?limit=1"⟩ =
      ListNextOutcome.getRequest "c?limit=1" := by
  refine ⟨(C3_amended_next_page ⟨0, [], ""⟩).1 (by decide), ?_⟩
  exact ((C3_amended_next_page ⟨0, [], "/v0/c?limit=1"⟩).2 (by decide)).trans
    (by decide)

/-- C9: for every result envelope (KV result, graph result, event), a
failure of the on-demand payload decode surfaces as the decode error and
leaves the envelope's already-parsed metadata (path, ordinal, timestamp,
raw payload bytes) unchanged. -/
theorem C9_decode_failure_frame {α : Type} (result : KVResult) (event : Event)
    (graphResult : GraphResult) (decode : String → Except String α)
    (msg : String) :
    (decode result.RawValue = .error msg →
      (result.valueStep decode).1 = .error msg ∧
      (result.valueStep decode).2.Path = result.Path ∧
      (result.valueStep decode).2.RawValue = result.RawValue) ∧
    (decode event.RawValue = .error msg →
      (event.valueStep decode).1 = .error msg ∧
      (event.valueStep decode).2.Ordinal = event.Ordinal ∧
      (event.valueStep decode).2.Timestamp = event.Timestamp ∧
      (event.valueStep decode).2.RawValue = event.RawValue) ∧
    (decode graphResult.RawValue = .error msg →
      (graphResult.valueStep decode).1 = .error msg ∧
      (graphResult.valueStep decode).2.Path = graphResult.Path ∧
      (graphResult.valueStep decode).2.RawValue = graphResult.RawValue) :=
  ⟨fun h => ⟨h, rfl, rfl⟩, fun h => ⟨h, rfl, rfl, rfl⟩, fun h => ⟨h, rfl, rfl⟩⟩

/-- Witness for C9 with an always-failing decoder on concrete
envelopes. -/
theorem C9_decode_failure_frame_witness :
    (KVResult.valueStep ⟨⟨"c", "k", "r"⟩, "notjson"⟩
      (fun _ => (Except.error "bad" : Except String Nat))).1 =
      Except.error "bad" ∧
    (KVResult.valueStep ⟨⟨"c", "k", "r"⟩, "notjson"⟩
      (fun _ => (Except.error "bad" : Except String Nat))).2.Path =
      ⟨"c", "k", "r"⟩ ∧
    (Event.valueStep ⟨1, 2, "notjson"⟩
      (fun _ => (Except.error "bad" : Except String Nat))).2.Ordinal = 1 ∧
    (Event.valueStep ⟨1, 2, "notjson"⟩
      (fun _ => (Except.error "bad" : Except String Nat))).2.Timestamp = 2 ∧
    (GraphResult.valueStep ⟨⟨"c", "k", "r"⟩, "notjson"⟩
      (fun _ => (Except.error "bad" : Except String Nat))).2.RawValue =
      "notjson" := by
  have h := C9_decode_failure_frame (α := Nat) ⟨⟨"c", "k", "r"⟩, "notjson"⟩
    ⟨1, 2, "notjson"⟩ ⟨⟨"c", "k", "r"⟩, "notjson"⟩ (fun _ => .error "bad") "bad"
  exact ⟨(h.1 rfl).1, (h.1 rfl).2.1, (h.2.1 rfl).2.1, (h.2.1 rfl).2.2.1,
    (h.2.2 rfl).2.2⟩

/-- C6: every response whose status is outside the operation's success
set (200 for reads and lists, 201 for KV puts, 204 for deletes, relation
puts and event puts) is converted to a service error carrying the HTTP
status line; an undecodable error body yields empty message and locator
while the status is still carried, and the call never fails on account of
the undecodable body. -/
theorem C6_service_error_mapping (resp : Response) (path : Path)
    (dec : String → KVResults × Option String) :
    (newError resp.Status resp.errorBodyDecode).Status = resp.Status ∧
    (resp.errorBodyDecode = none →
      newError resp.Status resp.errorBodyDecode = ⟨resp.Status, "", ""⟩) ∧
    (resp.StatusCode ≠ 200 →
      doListResponse resp dec =
        .serviceError (newError resp.Status resp.errorBodyDecode) ∧
      GetPathResponse path resp =
        some (.error (newError resp.Status resp.errorBodyDecode), path)) ∧
    (resp.StatusCode ≠ 201 →
      doPutResponse path resp =
        some (.error (newError resp.Status resp.errorBodyDecode))) ∧
    (resp.StatusCode ≠ 204 →
      doPutEventResponse resp =
        .error (newError resp.Status resp.errorBodyDecode) ∧
      doDeleteResponse resp =
        some (newError resp.Status resp.errorBodyDecode)) := by
  refine ⟨?_, ?_, ?_, ?_, ?_⟩
  · rcases hb : resp.errorBodyDecode with _ | ⟨m, l⟩ <;> simp [newError, hb]
  · intro hb
    simp [newError, hb]
  · intro h
    exact ⟨by simp [doListResponse, h], by simp [GetPathResponse, h]⟩
  · intro h
    simp [doPutResponse, h]
  · intro h
    exact ⟨by simp [doPutEventResponse, h], by simp [doDeleteResponse, h]⟩

/-- Witness for C6 at a 404 response whose body does not decode. -/
theorem C6_service_error_mapping_witness :
    doListResponse ⟨404, "404 Not Found", [], none, ""⟩
      (fun _ => (⟨0, [], ""⟩, none)) =
      .serviceError ⟨"404 Not Found", "", ""⟩ ∧
    GetPathResponse ⟨"c", "k", ""⟩ ⟨404, "404 Not Found", [], none, ""⟩ =
      some (.error ⟨"404 Not Found", "", ""⟩, ⟨"c", "k", ""⟩) ∧
    doPutResponse ⟨"c", "k", ""⟩ ⟨404, "404 Not Found", [], none, ""⟩ =
      some (.error ⟨"404 Not Found", "", ""⟩) ∧
    doPutEventResponse ⟨404, "404 Not Found", [], none, ""⟩ =
      .error ⟨"404 Not Found", "", ""⟩ ∧
    doDeleteResponse ⟨404, "404 Not Found", [], none, ""⟩ =
      some ⟨"404 Not Found", "", ""⟩ := by
  have h := C6_service_error_mapping ⟨404, "404 Not Found", [], none, ""⟩
    ⟨"c", "k", ""⟩ (fun _ => (⟨0, [], ""⟩, none))
  have hb : newError "404 Not Found" none = ⟨"404 Not Found", "", ""⟩ :=
    h.2.1 rfl
  refine ⟨hb ▸ (h.2.2.1 (by decide)).1, hb ▸ (h.2.2.1 (by decide)).2,
    hb ▸ h.2.2.2.1 (by decide), hb ▸ (h.2.2.2.2 (by decide)).1,
    hb ▸ (h.2.2.2.2 (by decide)).2⟩

/-- Helper: folding the Go join accumulator over the remaining hops
appends a separator-prefixed copy of each hop in order. -/
theorem foldl_append_eq_tailJoin (hs : List String) :
    ∀ acc : String, hs.foldl (fun a e => a ++ "/" ++ e) acc =
      acc ++ hs.foldr (fun hop t => "/" ++ hop ++ t) "" := by
  induction hs with
  | nil =>
    intro acc
    simp [String.ext_iff, String.data_append]
  | cons hop rest ih =>
    intro acc
    simp only [List.foldl_cons, List.foldr_cons, ih]
    simp [String.ext_iff, String.data_append, List.append_assoc]

/-- Helper: the spec's recursive "joined in order" form agrees with the
same separator-prefixed tail fold. -/
theorem joinedInOrder_cons_eq (hs : List String) :
    ∀ hop : String, joinedInOrder (hop :: hs) =
      hop ++ hs.foldr (fun h2 t => "/" ++ h2 ++ t) "" := by
  induction hs with
  | nil =>
    intro hop
    simp [joinedInOrder, String.ext_iff, String.data_append]
  | cons h2 rest ih =>
    intro hop
    simp only [joinedInOrder, List.foldr_cons, ih h2]
    simp [String.ext_iff, String.data_append, List.append_assoc]

/-- Helper: Go's `strings.Join` with separator `/` computes exactly the
hops joined in order by the path separator. -/
theorem stringsJoin_eq_joinedInOrder (hops : List String) :
    stringsJoin hops "/" = joinedInOrder hops := by
  cases hops with
  | nil => rfl
  | cons hop rest =>
    rw [stringsJoin, foldl_append_eq_tailJoin, joinedInOrder_cons_eq]

/-- C8: for every non-empty sequence of hops, the relation read path is
`collection/key/relations/` followed by the hops joined in order by the
path separator (plural segment `relations`), and the single-hop relation
write path uses the singular segment `relation`, yielding
`sourceCollection/sourceKey/relation/kind/sinkCollection/sinkKey`. -/
theorem C8_relation_paths (collection key : String) (hops : List String)
    (sourceCollection sourceKey kind sinkCollection sinkKey : String)
    (hne : hops ≠ []) :
    (GetRelationsRequest collection key hops).trailingUri =
      collection ++ "/" ++ key ++ "/relations/" ++ joinedInOrder hops ∧
    (PutRelationRequest sourceCollection sourceKey kind sinkCollection
      sinkKey).trailingUri =
      sourceCollection ++ "/" ++ sourceKey ++ "/relation/" ++ kind ++ "/" ++
        sinkCollection ++ "/" ++ sinkKey := by
  exact ⟨by simp [GetRelationsRequest, stringsJoin_eq_joinedInOrder], rfl⟩

/-- Witness for C8 at the spec's example hops `friends`, `colleagues`. -/
theorem C8_relation_paths_witness :
    (GetRelationsRequest "users" "alice" ["friends", "colleagues"]).trailingUri =
      "users/alice/relations/friends/colleagues" ∧
    (PutRelationRequest "users" "alice" "friend" "users" "bob").trailingUri =
      "users/alice/relation/friend/users/bob" := by
  have h := C8_relation_paths "users" "alice" ["friends", "colleagues"]
    "users" "alice" "friend" "users" "bob" (by decide)
  exact ⟨h.1.trans (by decide), h.2.trans (by decide)⟩

/-- Helper: a slash-free character list is returned whole as the single
piece of the split. -/
theorem splitAfterCharList_eq_of_not_mem (xs : List Char) (h : '/' ∉ xs) :
    splitAfterCharList '/' xs = [xs] := by
  induction xs with
  | nil => rfl
  | cons c cs ih =>
    have hc : ¬(c = '/') := fun hh => h (hh ▸ List.mem_cons_self c cs)
    have hcs : '/' ∉ cs := fun hm => h (List.mem_cons_of_mem c hm)
    simp [splitAfterCharList, hc, ih hcs]

/-- Helper: splitting after separators peels a slash-free chunk followed
by a separator off the front, keeping the separator on the chunk. -/
theorem splitAfterCharList_append_cons (xs rest : List Char) (h : '/' ∉ xs) :
    splitAfterCharList '/' (xs ++ '/' :: rest) =
      (xs ++ ['/']) :: splitAfterCharList '/' rest := by
  induction xs with
  | nil => simp [splitAfterCharList]
  | cons c cs ih =>
    have hc : ¬(c = '/') := fun hh => h (hh ▸ List.mem_cons_self c cs)
    have hcs : '/' ∉ cs := fun hm => h (List.mem_cons_of_mem c hm)
    simp [splitAfterCharList, hc, ih hcs]

/-- C1 counterexample: the source extracts refs by the fixed index 5 of
`strings.SplitAfter(header, "/")`, not by locating the `refs` marker.  On
the spec's own example header `https://host/v0/col/key/refs/abc123` the
marker-based reading yields `abc123` while the source yields the wrong
segment `key/`, and `doPut` hands exactly that wrong segment to the
caller; on a header where `refs` is the final segment the source panics
(index out of range) instead of failing with `HeaderParsingError`. -/
theorem C1_counterexample :
    extractRefAtIndex5 "https://host/v0/col/key/refs/abc123" = some "key/" ∧
    specRefsMarkerExtract "https://host/v0/col/key/refs/abc123" =
      RefExtractOutcome.ok "abc123" ∧
    ("key/" : String) ≠ "abc123" ∧
    extractRefAtIndex5 "/v0/col/key/refs" = none ∧
    specRefsMarkerExtract "/v0/col/key/refs" =
      RefExtractOutcome.headerParsingError ∧
    doPutResponse ⟨"col", "key", ""⟩
      ⟨201, "201 Created",
        [("Location", "https://host/v0/col/key/refs/abc123")], none, ""⟩ =
      some (.ok ⟨"col", "key", "key/"⟩) := by
  exact ⟨by decide, by decide, by decide, by decide, by decide, rfl⟩

/-- C1 amended: the ref handed back by a successful write or
ref-resolving read is the piece at fixed index 5 of splitting the header
after each `/`.  For headers of exactly the service's documented shape
`/v0/<collection>/<key>/refs/<ref>` with slash-free components this is
the segment following `refs` and `doPut` returns it to the caller, but
the position is found by counting, not by locating the `refs` marker: a
header with extra or missing leading components silently yields a wrong
segment, and one with fewer than six pieces panics with an index out of
range instead of failing with `HeaderParsingError`. -/
theorem C1_amended_fixed_index_extraction (col key ref : String) (path : Path)
    (st bd : String) (d : Option (String × String))
    (hc : '/' ∉ col.data) (hk : '/' ∉ key.data) (hr : '/' ∉ ref.data) :
    extractRefAtIndex5 ("/v0/" ++ col ++ "/" ++ key ++ "/refs/" ++ ref) =
      some ref ∧
    doPutResponse path
      ⟨201, st, [("Location", "/v0/" ++ col ++ "/" ++ key ++ "/refs/" ++ ref)],
        d, bd⟩ =
      some (.ok ⟨path.Collection, path.Key, ref⟩) := by
  have hmain : extractRefAtIndex5 ("/v0/" ++ col ++ "/" ++ key ++ "/refs/" ++ ref) =
      some ref := by
    have hdata : ("/v0/" ++ col ++ "/" ++ key ++ "/refs/" ++ ref).data =
        '/' :: 'v' :: '0' :: '/' :: (col.data ++ '/' ::
          (key.data ++ '/' :: 'r' :: 'e' :: 'f' :: 's' :: '/' :: ref.data)) := by
      have d1 : "/v0/".data = ['/', 'v', '0', '/'] := rfl
      have d2 : "/".data = ['/'] := rfl
      have d3 : "/refs/".data = ['/', 'r', 'e', 'f', 's', '/'] := rfl
      simp [String.data_append, d1, d2, d3, List.append_assoc]
    have s0 : splitAfterCharList '/'
        ('/' :: 'v' :: '0' :: '/' :: (col.data ++ '/' ::
          (key.data ++ '/' :: 'r' :: 'e' :: 'f' :: 's' :: '/' :: ref.data))) =
        ['/'] :: splitAfterCharList '/'
          ('v' :: '0' :: '/' :: (col.data ++ '/' ::
            (key.data ++ '/' :: 'r' :: 'e' :: 'f' :: 's' :: '/' :: ref.data))) :=
      splitAfterCharList_append_cons [] _ (by simp)
    have s1 : splitAfterCharList '/'
        ('v' :: '0' :: '/' :: (col.data ++ '/' ::
          (key.data ++ '/' :: 'r' :: 'e' :: 'f' :: 's' :: '/' :: ref.data))) =
        ['v', '0', '/'] :: splitAfterCharList '/'
          (col.data ++ '/' ::
            (key.data ++ '/' :: 'r' :: 'e' :: 'f' :: 's' :: '/' :: ref.data)) :=
      splitAfterCharList_append_cons ['v', '0'] _ (by decide)
    have s2 : splitAfterCharList '/'
        (col.data ++ '/' ::
          (key.data ++ '/' :: 'r' :: 'e' :: 'f' :: 's' :: '/' :: ref.data)) =
        (col.data ++ ['/']) :: splitAfterCharList '/'
          (key.data ++ '/' :: 'r' :: 'e' :: 'f' :: 's' :: '/' :: ref.data) :=
      splitAfterCharList_append_cons col.data _ hc
    have s3 : splitAfterCharList '/'
        (key.data ++ '/' :: 'r' :: 'e' :: 'f' :: 's' :: '/' :: ref.data) =
        (key.data ++ ['/']) :: splitAfterCharList '/'
          ('r' :: 'e' :: 'f' :: 's' :: '/' :: ref.data) :=
      splitAfterCharList_append_cons key.data _ hk
    have s4 : splitAfterCharList '/'
        ('r' :: 'e' :: 'f' :: 's' :: '/' :: ref.data) =
        ['r', 'e', 'f', 's', '/'] :: splitAfterCharList '/' ref.data :=
      splitAfterCharList_append_cons ['r', 'e', 'f', 's'] _ (by decide)
    have s5 : splitAfterCharList '/' ref.data = [ref.data] :=
      splitAfterCharList_eq_of_not_mem ref.data hr
    rw [extractRefAtIndex5, stringsSplitAfterSlash, hdata, s0, s1, s2, s3, s4, s5]
    simp
  refine ⟨hmain, ?_⟩
  have hh : headerGet
      [("Location", "/v0/" ++ col ++ "/" ++ key ++ "/refs/" ++ ref)]
      "Location" = "/v0/" ++ col ++ "/" ++ key ++ "/refs/" ++ ref := rfl
  simp [doPutResponse, hh, hmain]

/-- Witness for the amended C1 at collection `col`, key `key`, ref
`abc123`. -/
theorem C1_amended_fixed_index_extraction_witness :
    extractRefAtIndex5 "/v0/col/key/refs/abc123" = some "abc123" ∧
    doPutResponse ⟨"col", "key", ""⟩
      ⟨201, "201 Created", [("Location", "/v0/col/key/refs/abc123")],
        none, ""⟩ =
      some (.ok ⟨"col", "key", "abc123"⟩) := by
  have h := C1_amended_fixed_index_extraction "col" "key" "abc123"
    ⟨"col", "key", ""⟩ "201 Created" "" none (by decide) (by decide) (by decide)
  have e : "/v0/" ++ "col" ++ "/" ++ "key" ++ "/refs/" ++ "abc123" =
      "/v0/col/key/refs/abc123" := by decide
  exact ⟨(e ▸ h.1 :), (e ▸ h.2 :)⟩

/-- C10: when `GetPath` is called with a path whose `Ref` is empty and
the request succeeds with status 200, the caller-supplied path is mutated
in place with the ref extracted from the `Content-Location` header, and
the returned KV result embeds that same mutated path; a path passed in
with a non-empty `Ref` is left unchanged. -/
theorem C10_getpath_ref_mutation (path : Path) (resp : Response) (ref : String)
    (h200 : resp.StatusCode = 200) :
    (path.Ref = "" →
      extractRefAtIndex5 (headerGet resp.Header "Content-Location") = some ref →
      GetPathResponse path resp =
        some (.ok ⟨⟨path.Collection, path.Key, ref⟩, resp.body⟩,
          ⟨path.Collection, path.Key, ref⟩)) ∧
    (path.Ref ≠ "" →
      GetPathResponse path resp = some (.ok ⟨path, resp.body⟩, path)) := by
  constructor
  · intro hr hx
    simp [GetPathResponse, h200, hr, hx]
  · intro hr
    simp [GetPathResponse, h200, hr]

/-- Witness for C10: an empty-ref path picks up ref `abc` from
`Content-Location`, a non-empty-ref path is returned untouched. -/
theorem C10_getpath_ref_mutation_witness :
    GetPathResponse ⟨"c", "k", ""⟩
      ⟨200, "200 OK", [("Content-Location", "/v0/c/k/refs/abc")], none,
        "body"⟩ =
      some (.ok ⟨⟨"c", "k", "abc"⟩, "body"⟩, ⟨"c", "k", "abc"⟩) ∧
    GetPathResponse ⟨"c", "k", "r9"⟩
      ⟨200, "200 OK", [("Content-Location", "/v0/c/k/refs/abc")], none,
        "body"⟩ =
      some (.ok ⟨⟨"c", "k", "r9"⟩, "body"⟩, ⟨"c", "k", "r9"⟩) := by
  refine ⟨(C10_getpath_ref_mutation ⟨"c", "k", ""⟩
      ⟨200, "200 OK", [("Content-Location", "/v0/c/k/refs/abc")], none, "body"⟩
      "abc" rfl).1 rfl (by decide),
    (C10_getpath_ref_mutation ⟨"c", "k", "r9"⟩
      ⟨200, "200 OK", [("Content-Location", "/v0/c/k/refs/abc")], none, "body"⟩
      "abc" rfl).2 (by decide)⟩

end Gorc
